import Mathlib

/-!
Verification of the lazy-vacuum data model declared in
`src/include/commands/vacuum.h` (dead-tuple store sizing, parallel-vacuum
option flags, shared-segment bitmap access, vacuum parameters, error-context
save/restore, and the failsafe / parallel-worker protocol described by the
accompanying design document).

Machine integers are modelled as `Nat` with explicit reduction modulo `2 ^ 64`
where the C code computes in `size_t` and wraparound could matter.
-/

/-! ## Byte-layout constants

`ItemPointerData` is the 6-byte physical row identifier (a 4-byte block id
followed by a 2-byte offset number, both 2-byte aligned).  In `LVDeadTuples`
the flexible array `itemptrs` follows the two 4-byte `int` counters
`max_tuples` and `num_tuples`, so `offsetof(LVDeadTuples, itemptrs) = 8`. -/

def sizeofItemPointerData : Nat := 6

def offsetofItemptrs : Nat := 8

/-- `size_t` arithmetic wraps modulo `2 ^ 64`. -/
def SIZE_MOD : Nat := 2 ^ 64

/-- `SizeOfDeadTuples(cnt)`, from `vacuum.h`:
`add_size(offsetof(LVDeadTuples, itemptrs), mul_size(sizeof(ItemPointerData), cnt))`.
`add_size`/`mul_size` either return the exact mathematical value or raise an
overflow error, so the returned value is modelled exactly. -/
def SizeOfDeadTuples (cnt : Nat) : Nat :=
  offsetofItemptrs + sizeofItemPointerData * cnt

/-- `MAXDEADTUPLES(max_size)`, from `vacuum.h`:
`((max_size) - offsetof(LVDeadTuples, itemptrs)) / sizeof(ItemPointerData)`,
computed in `size_t`, so the subtraction wraps modulo `2 ^ 64`. -/
def MAXDEADTUPLES (max_size : Nat) : Nat :=
  ((max_size + (SIZE_MOD - offsetofItemptrs)) % SIZE_MOD) / sizeofItemPointerData

/-- The capacity formula in the spec's words: the integer floor of
`(memoryBudgetBytes - fixedHeaderOverhead) / entrySize`. -/
def specDeadRowCapacity (memoryBudgetBytes : Int) : Int :=
  Int.fdiv (memoryBudgetBytes - (offsetofItemptrs : Int)) (sizeofItemPointerData : Int)

/-! ## Parallel-vacuum option flags (`vacuum.h` lines 43-67) -/

def VACUUM_OPTION_NO_PARALLEL : Nat := 0

def VACUUM_OPTION_PARALLEL_BULKDEL : Nat := 1 <<< 0

def VACUUM_OPTION_PARALLEL_COND_CLEANUP : Nat := 1 <<< 1

def VACUUM_OPTION_PARALLEL_CLEANUP : Nat := 1 <<< 2

def VACUUM_OPTION_MAX_VALID_VALUE : Nat := (1 <<< 3) - 1

/-- A capability-flag value formed by freely combining the three parallel
capabilities (`false` everywhere gives `VACUUM_OPTION_NO_PARALLEL`). -/
def combineVacuumOptions (bulkdel condcleanup cleanup : Bool) : Nat :=
  (if bulkdel then VACUUM_OPTION_PARALLEL_BULKDEL else 0) |||
  (if condcleanup then VACUUM_OPTION_PARALLEL_COND_CLEANUP else 0) |||
  (if cleanup then VACUUM_OPTION_PARALLEL_CLEANUP else 0)

/-! ## Shared-segment bitmap and stats-slot location (`vacuum.h` lines 338-343)

The bitmap is the trailing `bits8 bitmap[]` of `LVShared`; we model it as the
list of its byte values.  Addresses are byte offsets from the start of the
shared segment. -/

/-- `IndStatsIsNull(s, i)`, from `vacuum.h`:
`!(((LVShared *)(s))->bitmap[(i) >> 3] & (1 << ((i) & 0x07)))`. -/
def IndStatsIsNull (bitmap : List Nat) (i : Nat) : Bool :=
  ((bitmap.getD (i >>> 3) 0) &&& (1 <<< (i &&& 0x07))) == 0

/-- `GetSharedIndStats(s)`, from `vacuum.h`:
`(LVSharedIndStats *)((char *)(s) + ((LVShared *)(s))->offset)` — the address
of the statistics-slot region, as segment base plus the stored byte offset. -/
def GetSharedIndStats (base : Nat) (offset : Nat) : Nat :=
  base + offset

/-- The spec's description of the bitmap test: bit `i mod 8` of
bitmap byte `i div 8` is set exactly when index `i` has valid shared stats. -/
def specBitmapBitSet (bitmap : List Nat) (i : Nat) : Bool :=
  (bitmap.getD (i / 8) 0).testBit (i % 8)

/-! ## Row identifiers and the dead-tuple store (`vacuum.h` lines 400-415)

`ItemPointerData` (block number, offset number) is ordered by TID address:
block number first, then offset number ("NB: this list is ordered by TID
address"). -/

structure ItemPointerData where
  ip_blkid : Nat
  ip_posid : Nat
deriving DecidableEq, Repr

def tidZero : ItemPointerData := ⟨0, 0⟩

/-- Strict TID-address order: block number first, then offset number. -/
def tidLtP (a b : ItemPointerData) : Prop :=
  a.ip_blkid < b.ip_blkid ∨ (a.ip_blkid = b.ip_blkid ∧ a.ip_posid < b.ip_posid)

instance (a b : ItemPointerData) : Decidable (tidLtP a b) := by
  unfold tidLtP; infer_instance

/-- Modelled from the spec: the comparator used by the dead-row store's
binary search (`contains(id)` "performs a binary search since the store is
kept sorted"); compares two row identifiers by TID address. -/
def vac_cmp_itemptr (a b : ItemPointerData) : Ordering :=
  if a.ip_blkid < b.ip_blkid then .lt
  else if b.ip_blkid < a.ip_blkid then .gt
  else if a.ip_posid < b.ip_posid then .lt
  else if b.ip_posid < a.ip_posid then .gt
  else .eq

/-- `LVDeadTuples`, from `vacuum.h`: capacity `max_tuples` plus the stored
TIDs; `num_tuples` is the length of `itemptrs`. -/
structure LVDeadTuples where
  max_tuples : Nat
  itemptrs : List ItemPointerData
deriving DecidableEq, Repr

def LVDeadTuples.num_tuples (dt : LVDeadTuples) : Nat :=
  dt.itemptrs.length

/-- A freshly allocated store of the given capacity. -/
def emptyDeadTuples (cap : Nat) : LVDeadTuples :=
  ⟨cap, []⟩

/-- Modelled from the spec: `insert(id)` of the Dead-Row Store — "appends in
the caller's scan order", "rejecting insertion once `count == capacity`"
(the recording routine is not part of the header). -/
def insertDeadTuple (dt : LVDeadTuples) (id : ItemPointerData) : LVDeadTuples :=
  if dt.num_tuples < dt.max_tuples then
    { dt with itemptrs := dt.itemptrs ++ [id] }
  else
    dt

/-- Modelled from the spec: `reset()` — "clears `count` to zero without
releasing capacity, for multi-pass runs". -/
def resetDeadTuples (dt : LVDeadTuples) : LVDeadTuples :=
  { dt with itemptrs := [] }

/-- The operations a vacuum run performs on the dead-row store: recording a
dead TID, and clearing the store after draining it through the index passes. -/
inductive DeadStoreOp where
  | insert (id : ItemPointerData)
  | reset
deriving DecidableEq, Repr

def applyDeadStoreOp (dt : LVDeadTuples) : DeadStoreOp → LVDeadTuples
  | .insert id => insertDeadTuple dt id
  | .reset => resetDeadTuples dt

def runDeadStoreOps (dt : LVDeadTuples) (ops : List DeadStoreOp) : LVDeadTuples :=
  ops.foldl applyDeadStoreOp dt

/-- Inserting a whole batch of TIDs in scan order. -/
def insertAllDeadTuples (dt : LVDeadTuples) (ids : List ItemPointerData) : LVDeadTuples :=
  ids.foldl insertDeadTuple dt

/-- Modelled from the spec: the binary search underlying `contains(id)`,
searching `xs` on the half-open index range `[lo, hi)` with the TID-address
comparator. -/
def bsearchRange (xs : List ItemPointerData) (key : ItemPointerData) (lo hi : Nat) : Bool :=
  if _h : lo < hi then
    match vac_cmp_itemptr key (xs.getD ((lo + hi) / 2) tidZero) with
    | .lt => bsearchRange xs key lo ((lo + hi) / 2)
    | .eq => true
    | .gt => bsearchRange xs key ((lo + hi) / 2 + 1) hi
  else false
termination_by hi - lo
decreasing_by
  · omega
  · omega

/-- Modelled from the spec: `contains(id)` — binary search over the whole
store. -/
def lazy_tid_reaped (dt : LVDeadTuples) (id : ItemPointerData) : Bool :=
  bsearchRange dt.itemptrs id 0 dt.num_tuples

/-! ## Error-context phases and save/restore (`vacuum.h` lines 219-236, 453-458) -/

/-- `VacErrPhase`, from `vacuum.h`. -/
inductive VacErrPhase where
  | VACUUM_ERRCB_PHASE_UNKNOWN
  | VACUUM_ERRCB_PHASE_SCAN_HEAP
  | VACUUM_ERRCB_PHASE_VACUUM_INDEX
  | VACUUM_ERRCB_PHASE_VACUUM_HEAP
  | VACUUM_ERRCB_PHASE_INDEX_CLEANUP
  | VACUUM_ERRCB_PHASE_TRUNCATE
deriving DecidableEq, Repr

/-- `LVSavedErrInfo`, from `vacuum.h`. -/
structure LVSavedErrInfo where
  blkno : Nat
  offnum : Nat
  phase : VacErrPhase
deriving DecidableEq, Repr

/-- The error-reporting fields of `LVRelState` (`blkno`, `offnum`, `phase`). -/
structure LVErrInfo where
  blkno : Nat
  offnum : Nat
  phase : VacErrPhase
deriving DecidableEq, Repr

/-- Modelled from the spec: `update_vacuum_error_info` — publishes a new
(phase, block, offset) error context, returning the updated state together
with the previous context saved into an `LVSavedErrInfo` (the routine itself
is not part of the header). -/
def update_vacuum_error_info (v : LVErrInfo) (phase : VacErrPhase)
    (blkno offnum : Nat) : LVErrInfo × LVSavedErrInfo :=
  (⟨blkno, offnum, phase⟩, ⟨v.blkno, v.offnum, v.phase⟩)

/-- Modelled from the spec: `restore_vacuum_error_info` — pops back to the
saved error context on every exit path of a nested sub-operation. -/
def restore_vacuum_error_info (_v : LVErrInfo) (s : LVSavedErrInfo) : LVErrInfo :=
  ⟨s.blkno, s.offnum, s.phase⟩

/-- A nested sub-operation's own error-context pushes: each element is the
(phase, block, offset) it publishes, without saving. -/
def applyErrUpdates (v : LVErrInfo) (us : List (VacErrPhase × Nat × Nat)) : LVErrInfo :=
  us.foldl (fun w u => (update_vacuum_error_info w u.1 u.2.1 u.2.2).1) v

/-! ## Failsafe monitor and the cost-based throttle (spec 4.2, 4.7;
`vacuum.h` `LVRelState.failsafe_active`, `vacuum_xid_failsafe_check`,
`vacuum_delay_point`) -/

/-- The steps of a vacuum run that interact with the failsafe flag or the
cost-based throttle: a failsafe re-check (`exceeded` says whether the
retained-id age crossed a hard ceiling at that moment), a
`vacuum_delay_point` call, and any other unit of work. -/
inductive VacStep where
  | checkFailsafe (exceeded : Bool)
  | delayPoint
  | work
deriving DecidableEq, Repr

/-- Modelled from the spec: how a step changes `failsafe_active` — only the
failsafe check touches it, and it only ever sets it ("once active it stays
active for the run"). -/
def stepFailsafe (active : Bool) : VacStep → Bool
  | .checkFailsafe exceeded => active || exceeded
  | .delayPoint => active
  | .work => active

/-- Modelled from the spec: whether a step performs a cost-throttle sleep —
only `vacuum_delay_point` sleeps, and only when cost-based delay is
configured on and the failsafe is not active ("the Cost-Based Throttle
becomes a no-op"). -/
def stepSleeps (costDelayEnabled : Bool) (active : Bool) : VacStep → Bool
  | .checkFailsafe _ => false
  | .delayPoint => costDelayEnabled && !active
  | .work => false

def runFailsafe (active : Bool) (steps : List VacStep) : Bool :=
  steps.foldl stepFailsafe active

/-- Whether any step of the trace sleeps, threading the failsafe flag. -/
def anySleep (costDelayEnabled : Bool) (active : Bool) : List VacStep → Bool
  | [] => false
  | st :: rest =>
      stepSleeps costDelayEnabled active st ||
      anySleep costDelayEnabled (stepFailsafe active st) rest

/-! ## Parallel worker-count selection (spec 4.6, 6; `vacuum.h`
`VacuumParams.nworkers`: "0 by default which means choose based on the
number of indexes.  -1 indicates parallel vacuum is disabled.") -/

/-- Modelled from the spec: `compute_parallel_vacuum_workers` — the
Parallel Coordinator's worker-count choice (the routine is not part of the
header).  A negative request forces serial execution; fewer than two
parallel-eligible indexes forces serial execution; a positive request yields
`min(requested, eligible)`; a zero request auto-sizes from the eligible
index count (per the `nworkers` comment in `vacuum.h` and spec section 6).
The result `0` means serial execution. -/
def compute_parallel_vacuum_workers (nrequested : Int) (nindexes_parallel : Nat) : Nat :=
  if nrequested < 0 then 0
  else if nindexes_parallel ≤ 1 then 0
  else if 0 < nrequested then min nrequested.toNat nindexes_parallel
  else nindexes_parallel

/-! ## Shared phase flags (`vacuum.h` lines 281-287): "first_time is true
only if for_cleanup is true and bulk-deletion is not performed yet." -/

/-- The pass-selection flags of `LVShared`. -/
structure LVSharedFlags where
  for_cleanup : Bool
  first_time : Bool
deriving DecidableEq, Repr

/-- Modelled from the spec: how the leader fills the `LVShared` flags before
a parallel pass — `for_cleanup` distinguishes a cleanup pass from a
bulk-delete pass, and `first_time` is set for a cleanup pass running before
any bulk-delete pass (`num_index_scans = 0`); a bulk-delete pass never sets
`first_time`. -/
def setSharedFlags (for_cleanup : Bool) (num_index_scans : Nat) : LVSharedFlags :=
  { for_cleanup := for_cleanup,
    first_time := for_cleanup && num_index_scans == 0 }

/-- The `LVShared` flag states reachable in a run: every pass is prepared by
`setSharedFlags`. -/
inductive ReachableSharedFlags : LVSharedFlags → Prop where
  | prep (for_cleanup : Bool) (num_index_scans : Nat) :
      ReachableSharedFlags (setSharedFlags for_cleanup num_index_scans)

/-! ## Theorems -/

/-- C1: For every memory budget `m` of at least the fixed header size (the
offset of the entry array) and within the `size_t` range, `MAXDEADTUPLES`
computes exactly the spec's capacity formula
`floor((memoryBudgetBytes - fixedHeaderOverhead) / entrySize)`. -/
theorem C1_maxdeadtuples_is_floor_formula (m : Nat)
    (hover : offsetofItemptrs ≤ m) (hrange : m < SIZE_MOD) :
    (MAXDEADTUPLES m : Int) = specDeadRowCapacity m := by
  unfold MAXDEADTUPLES specDeadRowCapacity
  have h1 : (m + (SIZE_MOD - offsetofItemptrs)) % SIZE_MOD = m - offsetofItemptrs := by
    unfold SIZE_MOD offsetofItemptrs at *
    omega
  have h2 : (m : Int) - (offsetofItemptrs : Int) = ((m - offsetofItemptrs : Nat) : Int) := by
    omega
  rw [h1, h2, Int.fdiv_eq_tdiv (Int.natCast_nonneg _) (Int.natCast_nonneg _),
    ← Int.ofNat_tdiv]

/-- C1 witness: a concrete 1000-byte budget. -/
theorem C1_witness :
    offsetofItemptrs ≤ 1000 ∧ 1000 < SIZE_MOD ∧
    (MAXDEADTUPLES 1000 : Int) = specDeadRowCapacity 1000 :=
  ⟨by decide, by simp [SIZE_MOD],
   C1_maxdeadtuples_is_floor_formula 1000 (by decide) (by simp [SIZE_MOD])⟩

/-- C10: The two sizing macros are mutually inverse.  For every entry count
`c` whose buffer fits in `size_t`, `MAXDEADTUPLES (SizeOfDeadTuples c) = c`;
for every byte budget `m` at least the fixed header size,
`SizeOfDeadTuples (MAXDEADTUPLES m) ≤ m` — the round trip is exact and never
overcommits the budget. -/
theorem C10_sizing_macros_round_trip (c m : Nat)
    (hc : SizeOfDeadTuples c < SIZE_MOD)
    (hm1 : offsetofItemptrs ≤ m) (hm2 : m < SIZE_MOD) :
    MAXDEADTUPLES (SizeOfDeadTuples c) = c ∧
    SizeOfDeadTuples (MAXDEADTUPLES m) ≤ m := by
  unfold MAXDEADTUPLES SizeOfDeadTuples SIZE_MOD offsetofItemptrs sizeofItemPointerData at *
  constructor
  · have h1 : (8 + 6 * c + (2 ^ 64 - 8)) % 2 ^ 64 = 6 * c := by omega
    rw [h1]
    omega
  · have h2 : (m + (2 ^ 64 - 8)) % 2 ^ 64 = m - 8 := by omega
    rw [h2]
    omega

/-- C10 witness: a store sized for 500 entries and a 4000-byte budget. -/
theorem C10_witness :
    SizeOfDeadTuples 500 < SIZE_MOD ∧ offsetofItemptrs ≤ 4000 ∧ 4000 < SIZE_MOD ∧
    (MAXDEADTUPLES (SizeOfDeadTuples 500) = 500 ∧
     SizeOfDeadTuples (MAXDEADTUPLES 4000) ≤ 4000) :=
  ⟨by simp [SizeOfDeadTuples, SIZE_MOD, offsetofItemptrs, sizeofItemPointerData],
   by decide, by simp [SIZE_MOD],
   C10_sizing_macros_round_trip 500 4000
     (by simp [SizeOfDeadTuples, SIZE_MOD, offsetofItemptrs, sizeofItemPointerData])
     (by decide) (by simp [SIZE_MOD])⟩

/-- C6: The capability-flag values are coherent: `VACUUM_OPTION_NO_PARALLEL`
shares no bit with any of the three parallel capabilities (an index flagged
no-parallel has none of them), the three parallel capabilities combine
freely, and every such combination is at most
`VACUUM_OPTION_MAX_VALID_VALUE`. -/
theorem C6_vacuum_option_flags_valid :
    (VACUUM_OPTION_NO_PARALLEL &&& VACUUM_OPTION_PARALLEL_BULKDEL = 0 ∧
     VACUUM_OPTION_NO_PARALLEL &&& VACUUM_OPTION_PARALLEL_COND_CLEANUP = 0 ∧
     VACUUM_OPTION_NO_PARALLEL &&& VACUUM_OPTION_PARALLEL_CLEANUP = 0) ∧
    (∀ bulkdel condcleanup cleanup : Bool,
      combineVacuumOptions bulkdel condcleanup cleanup ≤ VACUUM_OPTION_MAX_VALID_VALUE) ∧
    combineVacuumOptions false false false = VACUUM_OPTION_NO_PARALLEL := by
  decide

/-- C7: `IndStatsIsNull(s, i)` is true exactly when bit `i mod 8` of bitmap
byte `i div 8` is clear, and the statistics-slot region is located purely by
adding the stored byte offset to the segment base address. -/
theorem C7_bitmap_test_and_slot_location (bitmap : List Nat) (i : Nat)
    (base offset : Nat) :
    IndStatsIsNull bitmap i = !(specBitmapBitSet bitmap i) ∧
    GetSharedIndStats base offset = base + offset := by
  refine ⟨?_, rfl⟩
  unfold IndStatsIsNull specBitmapBitSet
  have h3 : i >>> 3 = i / 8 := by
    rw [Nat.shiftRight_eq_div_pow]
  have h7 : i &&& 0x07 = i % 8 := by
    have h := Nat.and_pow_two_sub_one_eq_mod i 3
    norm_num at h
    exact h
  rw [h3, h7, Nat.one_shiftLeft, Nat.and_two_pow]
  cases htb : (bitmap.getD (i / 8) 0).testBit (i % 8) with
  | false => simp
  | true =>
      have hpos := Nat.two_pow_pos (i % 8)
      simp only [Bool.toNat_true, Nat.one_mul, Bool.not_true]
      simp only [beq_eq_false_iff_ne, ne_eq]
      omega

/-! ### TID-order facts and binary-search correctness -/

theorem tidLtP_irrefl (a : ItemPointerData) : ¬tidLtP a a := by
  unfold tidLtP
  omega

theorem tidLtP_asymm {a b : ItemPointerData} (h : tidLtP a b) : ¬tidLtP b a := by
  unfold tidLtP at *
  omega

theorem tidLtP_ne {a b : ItemPointerData} (h : tidLtP a b) : a ≠ b := by
  intro heq
  exact tidLtP_irrefl a (heq ▸ h)

theorem vac_cmp_itemptr_eq_iff {a b : ItemPointerData} :
    vac_cmp_itemptr a b = .eq ↔ a = b := by
  cases a with
  | mk a1 a2 =>
      cases b with
      | mk b1 b2 =>
          unfold vac_cmp_itemptr
          simp only [ItemPointerData.mk.injEq]
          split_ifs <;> simp_all <;> omega

theorem vac_cmp_itemptr_lt_iff {a b : ItemPointerData} :
    vac_cmp_itemptr a b = .lt ↔ tidLtP a b := by
  cases a with
  | mk a1 a2 =>
      cases b with
      | mk b1 b2 =>
          unfold vac_cmp_itemptr tidLtP
          split_ifs <;> simp_all <;> omega

theorem vac_cmp_itemptr_gt_iff {a b : ItemPointerData} :
    vac_cmp_itemptr a b = .gt ↔ tidLtP b a := by
  cases a with
  | mk a1 a2 =>
      cases b with
      | mk b1 b2 =>
          unfold vac_cmp_itemptr tidLtP
          split_ifs <;> simp_all <;> omega

theorem pairwise_getD_lt {xs : List ItemPointerData} (h : List.Pairwise tidLtP xs)
    {i j : Nat} (hij : i < j) (hj : j < xs.length) :
    tidLtP (xs.getD i tidZero) (xs.getD j tidZero) := by
  rw [List.getD_eq_getElem _ _ (lt_trans hij hj), List.getD_eq_getElem _ _ hj]
  exact List.pairwise_iff_getElem.mp h i j (lt_trans hij hj) hj hij

/-- Binary search over a strictly TID-sorted list finds a key on `[lo, hi)`
exactly when some position in that range holds the key. -/
theorem bsearchRange_correct (xs : List ItemPointerData) (key : ItemPointerData)
    (hsort : List.Pairwise tidLtP xs) :
    ∀ n lo hi, hi - lo ≤ n → hi ≤ xs.length →
      (bsearchRange xs key lo hi = true ↔
        ∃ i, lo ≤ i ∧ i < hi ∧ xs.getD i tidZero = key) := by
  intro n
  induction n with
  | zero =>
      intro lo hi hn _hhi
      have hnlt : ¬lo < hi := by omega
      rw [bsearchRange.eq_def, dif_neg hnlt]
      simp only [Bool.false_eq_true, false_iff]
      rintro ⟨i, h1, h2, -⟩
      omega
  | succ n ih =>
      intro lo hi hn hhi
      rw [bsearchRange.eq_def]
      by_cases hlh : lo < hi
      · rw [dif_pos hlh]
        have hmlo : lo ≤ (lo + hi) / 2 := by omega
        have hmhi : (lo + hi) / 2 < hi := by omega
        cases hcmp : vac_cmp_itemptr key (xs.getD ((lo + hi) / 2) tidZero) with
        | lt =>
            have hklt : tidLtP key (xs.getD ((lo + hi) / 2) tidZero) :=
              vac_cmp_itemptr_lt_iff.mp hcmp
            show bsearchRange xs key lo ((lo + hi) / 2) = true ↔
                ∃ i, lo ≤ i ∧ i < hi ∧ xs.getD i tidZero = key
            rw [ih lo ((lo + hi) / 2) (by omega) (by omega)]
            constructor
            · rintro ⟨i, h1, h2, h3⟩
              exact ⟨i, h1, by omega, h3⟩
            · rintro ⟨i, h1, h2, h3⟩
              refine ⟨i, h1, ?_, h3⟩
              by_contra hge
              rcases Nat.eq_or_lt_of_le (by omega : (lo + hi) / 2 ≤ i) with heq | hlt2
              · rw [← heq] at h3
                exact tidLtP_ne hklt h3.symm
              · have hmem := pairwise_getD_lt hsort hlt2 (lt_of_lt_of_le h2 hhi)
                rw [h3] at hmem
                exact tidLtP_asymm hklt hmem
        | eq =>
            have hkeq : key = xs.getD ((lo + hi) / 2) tidZero :=
              vac_cmp_itemptr_eq_iff.mp hcmp
            show true = true ↔ ∃ i, lo ≤ i ∧ i < hi ∧ xs.getD i tidZero = key
            simp only [true_iff]
            exact ⟨(lo + hi) / 2, hmlo, hmhi, hkeq.symm⟩
        | gt =>
            have hkgt : tidLtP (xs.getD ((lo + hi) / 2) tidZero) key :=
              vac_cmp_itemptr_gt_iff.mp hcmp
            show bsearchRange xs key ((lo + hi) / 2 + 1) hi = true ↔
                ∃ i, lo ≤ i ∧ i < hi ∧ xs.getD i tidZero = key
            rw [ih ((lo + hi) / 2 + 1) hi (by omega) hhi]
            constructor
            · rintro ⟨i, h1, h2, h3⟩
              exact ⟨i, by omega, h2, h3⟩
            · rintro ⟨i, h1, h2, h3⟩
              refine ⟨i, ?_, h2, h3⟩
              by_contra hlt3
              rcases Nat.eq_or_lt_of_le (by omega : i ≤ (lo + hi) / 2) with heq | hlt4
              · rw [heq] at h3
                exact tidLtP_ne hkgt h3
              · have hmem := pairwise_getD_lt hsort hlt4 (by omega : (lo + hi) / 2 < xs.length)
                rw [h3] at hmem
                exact tidLtP_asymm hkgt hmem
      · rw [dif_neg hlh]
        simp only [Bool.false_eq_true, false_iff]
        rintro ⟨i, h1, h2, -⟩
        omega

/-! ### Dead-row store invariants -/

theorem applyDeadStoreOp_invariant (dt : LVDeadTuples) (op : DeadStoreOp)
    (h : dt.num_tuples ≤ dt.max_tuples) :
    (applyDeadStoreOp dt op).num_tuples ≤ (applyDeadStoreOp dt op).max_tuples ∧
    (applyDeadStoreOp dt op).max_tuples = dt.max_tuples := by
  cases op with
  | insert id =>
      unfold applyDeadStoreOp insertDeadTuple LVDeadTuples.num_tuples at *
      by_cases hlt : dt.itemptrs.length < dt.max_tuples
      · simp [hlt]
        omega
      · simp [hlt]
        omega
  | reset =>
      unfold applyDeadStoreOp resetDeadTuples LVDeadTuples.num_tuples at *
      simp

theorem runDeadStoreOps_invariant (ops : List DeadStoreOp) :
    ∀ dt : LVDeadTuples, dt.num_tuples ≤ dt.max_tuples →
      (runDeadStoreOps dt ops).num_tuples ≤ (runDeadStoreOps dt ops).max_tuples ∧
      (runDeadStoreOps dt ops).max_tuples = dt.max_tuples := by
  induction ops with
  | nil =>
      intro dt h
      exact ⟨h, rfl⟩
  | cons op rest ih =>
      intro dt h
      unfold runDeadStoreOps at *
      simp only [List.foldl_cons]
      rcases applyDeadStoreOp_invariant dt op h with ⟨h1, h2⟩
      rcases ih (applyDeadStoreOp dt op) h1 with ⟨h3, h4⟩
      exact ⟨h3, by rw [h4, h2]⟩

/-- C2: Starting from an empty store, after every sequence of insert /
reset(drain) operations the entry count stays at most the capacity, and an
insert arriving when `count = capacity` is rejected (leaves the store
unchanged). -/
theorem C2_count_le_capacity (cap : Nat) (ops : List DeadStoreOp)
    (dt : LVDeadTuples) (id : ItemPointerData)
    (hfull : dt.num_tuples = dt.max_tuples) :
    (runDeadStoreOps (emptyDeadTuples cap) ops).num_tuples ≤ cap ∧
    insertDeadTuple dt id = dt := by
  constructor
  · have hstart : (emptyDeadTuples cap).num_tuples ≤ (emptyDeadTuples cap).max_tuples := by
      simp [emptyDeadTuples, LVDeadTuples.num_tuples]
    rcases runDeadStoreOps_invariant ops (emptyDeadTuples cap) hstart with ⟨h1, h2⟩
    rw [h2] at h1
    exact h1
  · unfold insertDeadTuple
    rw [if_neg (by omega)]

/-- C2 witness: a store of capacity 1, filled and then offered one more TID. -/
theorem C2_witness :
    LVDeadTuples.num_tuples ⟨1, [⟨0, 1⟩]⟩ = LVDeadTuples.max_tuples ⟨1, [⟨0, 1⟩]⟩ ∧
    ((runDeadStoreOps (emptyDeadTuples 1)
        [DeadStoreOp.insert ⟨0, 1⟩, DeadStoreOp.insert ⟨0, 2⟩]).num_tuples ≤ 1 ∧
     insertDeadTuple ⟨1, [⟨0, 1⟩]⟩ ⟨0, 2⟩ = ⟨1, [⟨0, 1⟩]⟩) :=
  ⟨by decide,
   C2_count_le_capacity 1 [DeadStoreOp.insert ⟨0, 1⟩, DeadStoreOp.insert ⟨0, 2⟩]
     ⟨1, [⟨0, 1⟩]⟩ ⟨0, 2⟩ (by decide)⟩

theorem insertAll_itemptrs (ids : List ItemPointerData) :
    ∀ dt : LVDeadTuples, dt.num_tuples + ids.length ≤ dt.max_tuples →
      (insertAllDeadTuples dt ids).itemptrs = dt.itemptrs ++ ids := by
  induction ids with
  | nil =>
      intro dt _h
      simp [insertAllDeadTuples]
  | cons id rest ih =>
      intro dt h
      unfold LVDeadTuples.num_tuples at h
      simp only [List.length_cons] at h
      unfold insertAllDeadTuples at *
      simp only [List.foldl_cons]
      have hins : insertDeadTuple dt id = { dt with itemptrs := dt.itemptrs ++ [id] } := by
        unfold insertDeadTuple
        rw [if_pos]
        unfold LVDeadTuples.num_tuples
        omega
      rw [hins, ih]
      · simp
      · unfold LVDeadTuples.num_tuples
        simp
        omega

/-- C3: If the heap scan inserts a strictly ascending sequence of row
identifiers that fits in the store, then the store contents are strictly
ascending by TID address (hence duplicate-free), and the binary-search
membership test `contains(id)` returns true exactly for the inserted
identifiers. -/
theorem C3_sorted_and_binary_search (cap : Nat) (ids : List ItemPointerData)
    (id : ItemPointerData)
    (hsort : List.Pairwise tidLtP ids) (hlen : ids.length ≤ cap) :
    List.Pairwise tidLtP (insertAllDeadTuples (emptyDeadTuples cap) ids).itemptrs ∧
    (insertAllDeadTuples (emptyDeadTuples cap) ids).itemptrs.Nodup ∧
    (lazy_tid_reaped (insertAllDeadTuples (emptyDeadTuples cap) ids) id = true ↔
      id ∈ ids) := by
  have hcont : (insertAllDeadTuples (emptyDeadTuples cap) ids).itemptrs = ids := by
    rw [insertAll_itemptrs ids (emptyDeadTuples cap)
      (by simp [emptyDeadTuples, LVDeadTuples.num_tuples]; omega)]
    simp [emptyDeadTuples]
  refine ⟨by rw [hcont]; exact hsort, ?_, ?_⟩
  · rw [hcont]
    exact List.Pairwise.imp (fun hab => tidLtP_ne hab) hsort
  · unfold lazy_tid_reaped LVDeadTuples.num_tuples
    rw [hcont]
    rw [bsearchRange_correct ids id hsort ids.length 0 ids.length (by omega) (by omega)]
    constructor
    · rintro ⟨i, -, h2, h3⟩
      rw [List.getD_eq_getElem _ _ h2] at h3
      exact h3 ▸ List.getElem_mem h2
    · intro hm
      rcases List.mem_iff_getElem.mp hm with ⟨i, hlt, heq⟩
      exact ⟨i, Nat.zero_le _, hlt, by rw [List.getD_eq_getElem _ _ hlt]; exact heq⟩

/-- C3 witness: three ascending TIDs in a capacity-3 store; the middle one is
found by the binary search. -/
theorem C3_witness :
    List.Pairwise tidLtP [(⟨0, 1⟩ : ItemPointerData), ⟨0, 3⟩, ⟨1, 2⟩] ∧
    (List.Pairwise tidLtP
        (insertAllDeadTuples (emptyDeadTuples 3) [⟨0, 1⟩, ⟨0, 3⟩, ⟨1, 2⟩]).itemptrs ∧
      (insertAllDeadTuples (emptyDeadTuples 3) [⟨0, 1⟩, ⟨0, 3⟩, ⟨1, 2⟩]).itemptrs.Nodup ∧
      (lazy_tid_reaped (insertAllDeadTuples (emptyDeadTuples 3) [⟨0, 1⟩, ⟨0, 3⟩, ⟨1, 2⟩])
          ⟨0, 3⟩ = true ↔ (⟨0, 3⟩ : ItemPointerData) ∈ [(⟨0, 1⟩ : ItemPointerData), ⟨0, 3⟩, ⟨1, 2⟩])) :=
  ⟨by decide,
   C3_sorted_and_binary_search 3 [⟨0, 1⟩, ⟨0, 3⟩, ⟨1, 2⟩] ⟨0, 3⟩ (by decide) (by decide)⟩

/-! ### Failsafe, worker count, error context, shared flags -/

theorem stepFailsafe_true (st : VacStep) : stepFailsafe true st = true := by
  cases st <;> simp [stepFailsafe]

theorem runFailsafe_true (steps : List VacStep) : runFailsafe true steps = true := by
  induction steps with
  | nil => rfl
  | cons st rest ih =>
      unfold runFailsafe at *
      simp only [List.foldl_cons, stepFailsafe_true]
      exact ih

theorem anySleep_true (costDelayEnabled : Bool) (steps : List VacStep) :
    anySleep costDelayEnabled true steps = false := by
  induction steps with
  | nil => rfl
  | cons st rest ih =>
      unfold anySleep
      rw [stepFailsafe_true, ih]
      cases st <;> simp [stepSleeps]

/-- C4: Failsafe activation is one-way within a run — if the flag is true
after some prefix of the run's steps, it is still true after any further
steps, and no cost-throttle sleep occurs in any step taken after it is
true. -/
theorem C4_failsafe_one_way (costDelayEnabled init : Bool)
    (steps₁ steps₂ : List VacStep)
    (h : runFailsafe init steps₁ = true) :
    runFailsafe init (steps₁ ++ steps₂) = true ∧
    anySleep costDelayEnabled (runFailsafe init steps₁) steps₂ = false := by
  constructor
  · unfold runFailsafe at *
    rw [List.foldl_append, h]
    exact runFailsafe_true steps₂
  · rw [h]
    exact anySleep_true costDelayEnabled steps₂

/-- C4 witness: the failsafe trips at the first check; a later delay point
does not sleep even with cost delay configured on. -/
theorem C4_witness :
    runFailsafe false [VacStep.checkFailsafe true] = true ∧
    (runFailsafe false ([VacStep.checkFailsafe true] ++
        [VacStep.delayPoint, VacStep.work, VacStep.checkFailsafe false]) = true ∧
     anySleep true (runFailsafe false [VacStep.checkFailsafe true])
        [VacStep.delayPoint, VacStep.work, VacStep.checkFailsafe false] = false) :=
  ⟨by decide,
   C4_failsafe_one_way true false [VacStep.checkFailsafe true]
     [VacStep.delayPoint, VacStep.work, VacStep.checkFailsafe false] (by decide)⟩

/-- C5 counterexample: the claim says a worker-count request of zero forces
serial execution, but with `nworkers = 0` and 3 parallel-eligible indexes
the coordinator auto-sizes from the index count (per the `nworkers` comment
in `vacuum.h`: "0 by default which means choose based on the number of
indexes") and runs 3 workers, not serially. -/
theorem C5_counterexample :
    compute_parallel_vacuum_workers 0 3 = 3 ∧ (3 : Nat) ≠ 0 := by
  decide

/-- C5 (amended): the coordinator falls back to serial execution whenever
the request is negative or fewer than two indexes are parallel-eligible; a
positive request chooses `min(requested, eligible)`; a zero request
auto-sizes to the eligible index count. -/
theorem C5_worker_count_choice (nrequested : Int) (k : Nat) :
    (nrequested < 0 → compute_parallel_vacuum_workers nrequested k = 0) ∧
    (k ≤ 1 → compute_parallel_vacuum_workers nrequested k = 0) ∧
    (0 < nrequested → 2 ≤ k →
      compute_parallel_vacuum_workers nrequested k = min nrequested.toNat k) ∧
    (nrequested = 0 → 2 ≤ k → compute_parallel_vacuum_workers nrequested k = k) := by
  unfold compute_parallel_vacuum_workers
  refine ⟨fun h1 => by rw [if_pos h1], fun h2 => ?_, fun h3 h4 => ?_, fun h5 h6 => ?_⟩
  · split_ifs <;> simp_all
  · rw [if_neg (by omega), if_neg (by omega), if_pos h3]
  · rw [if_neg (by omega), if_neg (by omega), if_neg (by omega)]

/-- C5 witness: the spec's own scenario — `nworkers = 3`, 5 eligible indexes
gives `min(3, 5) = 3` workers. -/
theorem C5_witness :
    0 < (3 : Int) ∧ 2 ≤ 5 ∧
    compute_parallel_vacuum_workers 3 5 = min (3 : Int).toNat 5 :=
  ⟨by decide, by decide, (C5_worker_count_choice 3 5).2.2.1 (by decide) (by decide)⟩

/-- C8: Saving the error context (phase, block, offset), running any nested
sub-operation that pushes its own phases, and then restoring, yields exactly
the saved phase, block number and offset number. -/
theorem C8_errinfo_round_trip (v : LVErrInfo) (phase : VacErrPhase)
    (blkno offnum : Nat) (nested : List (VacErrPhase × Nat × Nat)) :
    restore_vacuum_error_info
      (applyErrUpdates (update_vacuum_error_info v phase blkno offnum).1 nested)
      (update_vacuum_error_info v phase blkno offnum).2 = v :=
  rfl

/-- C9: In every reachable `LVShared` flag state, `first_time` implies
`for_cleanup` — `first_time` is never true during a bulk-delete pass. -/
theorem C9_first_time_implies_for_cleanup (s : LVSharedFlags)
    (hreach : ReachableSharedFlags s) (hft : s.first_time = true) :
    s.for_cleanup = true := by
  cases hreach with
  | prep fc n =>
      unfold setSharedFlags at hft ⊢
      simp only [Bool.and_eq_true, beq_iff_eq] at hft
      exact hft.1

/-- C9 witness: the first cleanup pass of a run (no bulk-delete yet). -/
theorem C9_witness :
    (setSharedFlags true 0).first_time = true ∧
    (setSharedFlags true 0).for_cleanup = true :=
  ⟨by decide,
   C9_first_time_implies_for_cleanup (setSharedFlags true 0)
     (ReachableSharedFlags.prep true 0) (by decide)⟩
